import Mathlib

/-!
Verification development for the ai-timer-api repository.

The repository is a small JavaScript service that turns free-text workout
descriptions into a canonical workout-timer schedule.  Several historical
variants of the same pipeline appear in the sources:

* `src/unnamed/part_000`  - the primary pipeline (extractors, normalizer,
  orchestration); embedded below without a suffix.
* `src/server.js` (first listing) - the timeline-based variant; embedded with
  the `Timeline` prefix.
* `src/README.md` (second listing) - a variant whose extractor chain also has
  `parseWorkRestPattern`; its chain is embedded as `deterministicParseV2`.
* `src/README.md` (third listing) - a variant whose normalizer can throw;
  embedded as `normalizeV3` (and `analyzeAndFixSequenceV3`).

Texts are embedded as `String` / `List Char`.  The JavaScript regexes used by
the code are embedded with a small backtracking regular-expression engine
(`RE`, `matchL`); each JS regex is transcribed into an `RE` list next to a
comment with the original pattern.  The engine follows JS semantics: scan for
the leftmost match, greedy quantifiers with backtracking, left-first
alternation, case-insensitive matching (all the regexes in the sources carry
the `i` flag except where noted).  The matcher uses a fuel argument so that
it is structurally recursive; the fuel `RE.sizeList pat + 1` bounds the
recursion depth, which strictly decreases with the pattern measure at every
step, so the fuel is never exhausted and the semantics are exact.
-/

namespace AITimer

/-! ## Character helpers (JS semantics, ASCII fragment) -/

/-- Lower-case an ASCII character (JS `toLowerCase` on the ASCII range). -/
def lowerC (c : Char) : Char :=
  if 'A' ≤ c ∧ c ≤ 'Z' then Char.ofNat (c.toNat + 32) else c

/-- JS `\d`. -/
def isDigitC (c : Char) : Bool := c.isDigit

/-- JS `\s` (ASCII fragment: space, tab, newline, carriage return, form feed,
vertical tab; the sources only ever see ASCII input). -/
def isWs (c : Char) : Bool :=
  c = ' ' || c = '\t' || c = '\n' || c = '\r' || c = '\x0C' || c = '\x0B'

/-- JS `\w`. -/
def isWordChar (c : Char) : Bool := c.isAlpha || c.isDigit || c = '_'

/-- JS `[^.;\n]` (clause-boundary class used by the odd/even captures). -/
def notClause (c : Char) : Bool := !(c = '.' || c = ';' || c = '\n')

/-- JS `[^,.;\n]` (item-boundary class used by the HIIT item capture). -/
def notSeqSep (c : Char) : Bool := !(c = ',' || c = '.' || c = ';' || c = '\n')

/-- JS `[^a-z0-9]` under the `i` flag (used by the coercion odd/even capture). -/
def nonAlnumCI (c : Char) : Bool := !(c.isAlpha || c.isDigit)

/-- JS `.` (any character except line terminators). -/
def anyNoNL (c : Char) : Bool := !(c = '\n' || c = '\r')

/-- Case-insensitive single-character class. -/
def chrCI (t c : Char) : Bool := lowerC c = lowerC t

/-- `parseInt` on an all-digit capture. -/
def parseDigits (l : List Char) : Nat :=
  l.foldl (fun a c => a * 10 + (c.toNat - 48)) 0

/-- JS `trim` (ASCII whitespace). -/
def jsTrim (l : List Char) : List Char :=
  ((l.dropWhile isWs).reverse.dropWhile isWs).reverse

/-- JS `toLowerCase` on a character list. -/
def lowerStr (l : List Char) : List Char := l.map lowerC

/-- Does `hay` start with `needle` (case-sensitive)? -/
def listStartsWith (needle hay : List Char) : Bool :=
  match needle, hay with
  | [], _ => true
  | _ :: _, [] => false
  | n :: ns, h :: hs => n = h && listStartsWith ns hs

/-- JS `String.prototype.includes` (case-sensitive substring). -/
def isSubstr (needle hay : List Char) : Bool :=
  match hay with
  | [] => needle.isEmpty
  | _ :: t => listStartsWith needle hay || isSubstr needle t

/-! ## JS truthiness helpers -/

/-- JS `a || d` for numbers (`0` and `undefined` are falsy). -/
def jsOrN (a : Option Nat) (d : Nat) : Nat :=
  match a with
  | some n => if n = 0 then d else n
  | none => d

/-- JS `num(x) || num(y)` kept optional (for a later truthiness test). -/
def jsOrNOpt (a b : Option Nat) : Option Nat :=
  match a with
  | some n => if n = 0 then b else some n
  | none => b

/-- JS `a || d` for strings (`""` and `undefined` are falsy). -/
def jsOrS (a : Option String) (d : String) : String :=
  match a with
  | some s => if s = "" then d else s
  | none => d

/-- `Math.ceil(n / 60)` on natural numbers. -/
def ceil60 (n : Nat) : Nat := (n + 59) / 60

/-! ## Regular-expression engine

A pattern is a list of `RE` items matched in sequence.  Quantifiers only ever
appear over single-character classes in the source regexes, which is what
`cls` provides (greedy, with backtracking through the continuation). -/

inductive RE where
  /-- greedy quantified character class `p{lo,hi}` (`hi = none` means `*`
  upper bound); `cap` marks a capture group around the class -/
  | cls (p : Char → Bool) (lo : Nat) (hi : Option Nat) (cap : Bool)
  /-- case-insensitive literal (stored lower-case) -/
  | lit (cs : List Char)
  /-- `(?: ... )?` greedy optional group -/
  | opt (inner : List RE)
  /-- `(?:a|b)` alternation, left branch first -/
  | alt (a b : List RE)
  /-- `\b` word boundary -/
  | wb
  /-- `(?! ... )` negative lookahead -/
  | nla (inner : List RE)

mutual

def RE.size : RE → Nat
  | .cls _ _ _ _ => 1
  | .lit _ => 1
  | .wb => 1
  | .opt l => 1 + RE.sizeList l
  | .alt a b => 1 + RE.sizeList a + RE.sizeList b
  | .nla l => 1 + RE.sizeList l

def RE.sizeList : List RE → Nat
  | [] => 0
  | r :: rs => r.size + RE.sizeList rs

end

/-- Length of the maximal prefix of `s` whose characters satisfy `p`. -/
def runLen (p : Char → Bool) : List Char → Nat
  | [] => 0
  | c :: t => if p c then runLen p t + 1 else 0

/-- Case-insensitive literal match; returns consumed characters and rest. -/
def litMatch : List Char → List Char → Option (List Char × List Char)
  | [], s => some ([], s)
  | _ :: _, [] => none
  | c :: cs, x :: xs =>
    if lowerC x = lowerC c then
      (litMatch cs xs).map (fun r => (x :: r.1, r.2))
    else none

/-- The character preceding the current position after consuming `taken`. -/
def lastPrev (taken : List Char) (prev : Option Char) : Option Char :=
  match taken.getLast? with
  | some c => some c
  | none => prev

/-- JS `\b`: word-ness differs between the previous character and the next. -/
def wordBoundary (prev : Option Char) (s : List Char) : Bool :=
  (match prev with | some c => isWordChar c | none => false)
    != (match s with | c :: _ => isWordChar c | [] => false)

/-- Match a pattern at the current position.  Returns the captures (in
pattern order), the consumed characters and the remaining input.  `prev` is
the character before the current position (for `\b`).  The fuel bounds the
recursion depth; every recursive call strictly decreases `RE.sizeList` of the
pattern argument, so fuel `RE.sizeList pat + 1` is always sufficient. -/
def matchL : Nat → List RE → Option Char → List Char →
    Option (List (List Char) × List Char × List Char)
  | 0, _, _, _ => none
  | _ + 1, [], _, s => some ([], [], s)
  | fuel + 1, .wb :: rest, prev, s =>
    if wordBoundary prev s then matchL fuel rest prev s else none
  | fuel + 1, .lit cs :: rest, prev, s =>
    match litMatch cs s with
    | some r =>
      (matchL fuel rest (lastPrev r.1 prev) r.2).map
        (fun x => (x.1, r.1 ++ x.2.1, x.2.2))
    | none => none
  | fuel + 1, .cls p lo hi cap :: rest, prev, s =>
    let run := runLen p s
    let maxT := match hi with | some h => Nat.min h run | none => run
    ((List.range (maxT + 1 - lo)).map (fun i => maxT - i)).findSome? (fun n =>
      let taken := s.take n
      (matchL fuel rest (lastPrev taken prev) (s.drop n)).map (fun x =>
        ((if cap then [taken] else []) ++ x.1, taken ++ x.2.1, x.2.2)))
  | fuel + 1, .opt inner :: rest, prev, s =>
    match matchL fuel (inner ++ rest) prev s with
    | some r => some r
    | none => matchL fuel rest prev s
  | fuel + 1, .alt a b :: rest, prev, s =>
    match matchL fuel (a ++ rest) prev s with
    | some r => some r
    | none => matchL fuel (b ++ rest) prev s
  | fuel + 1, .nla inner :: rest, prev, s =>
    match matchL fuel inner prev s with
    | some _ => none
    | none => matchL fuel rest prev s

/-- Try the pattern at the current position only. -/
def reHere (pat : List RE) (prev : Option Char) (s : List Char) :
    Option (List (List Char) × List Char × List Char) :=
  matchL (RE.sizeList pat + 1) pat prev s

/-- JS `String.prototype.match` (no `g` flag): leftmost match, captures. -/
def reFindFrom (pat : List RE) : Option Char → List Char →
    Option (List (List Char))
  | prev, s =>
    match reHere pat prev s with
    | some x => some x.1
    | none =>
      match s with
      | [] => none
      | c :: t => reFindFrom pat (some c) t

def reFind (pat : List RE) (s : List Char) : Option (List (List Char)) :=
  reFindFrom pat none s

/-- JS `RegExp.prototype.test`. -/
def reTest (pat : List RE) (s : List Char) : Bool := (reFind pat s).isSome

/-- First capture group of the first match, parsed as a number (the `num`
helper of the sources returns `undefined` when the match fails). -/
def reCapNat (pat : List RE) (s : String) : Option Nat :=
  (reFind pat s.data).map (fun caps => parseDigits (caps.headD []))

/-- JS `String.prototype.matchAll`: all non-overlapping matches from the
left; on an empty match the scan advances one character. -/
def reAllAux (pat : List RE) : Nat → Option Char → List Char →
    List (List (List Char))
  | 0, _, _ => []
  | fuel + 1, prev, s =>
    match reHere pat prev s with
    | some (caps, con, r) =>
      match con with
      | [] =>
        match s with
        | [] => [caps]
        | c :: t => caps :: reAllAux pat fuel (some c) t
      | _ => caps :: reAllAux pat fuel (lastPrev con prev) r
    | none =>
      match s with
      | [] => []
      | c :: t => reAllAux pat fuel (some c) t

def reAll (pat : List RE) (s : List Char) : List (List (List Char)) :=
  reAllAux pat (s.length + 1) none s

/-! ## The regexes of the sources, transcribed -/

/-- `/(\d{1,3})\s*-?\s*(?:min|minute)/i` (parseEMOM minute capture). -/
def reEmomMin : List RE :=
  [.cls isDigitC 1 (some 3) true, .cls isWs 0 none false,
   .cls (chrCI '-') 0 (some 1) false, .cls isWs 0 none false,
   .alt [.lit "min".data] [.lit "minute".data]]

/-- `/(\bEMOM\b|every\s+minute)/i` (parseEMOM cue test). -/
def reEmomCue : List RE :=
  [.alt [.wb, .lit "emom".data, .wb]
        [.lit "every".data, .cls isWs 1 none false, .lit "minute".data]]

/-- `/odd[^\w]+([^.;\n]+)/i` (extractOddEven). -/
def reOdd : List RE :=
  [.lit "odd".data, .cls (fun c => !isWordChar c) 1 none false,
   .cls notClause 1 none true]

/-- `/even[^\w]+([^.;\n]+)/i` (extractOddEven). -/
def reEven : List RE :=
  [.lit "even".data, .cls (fun c => !isWordChar c) 1 none false,
   .cls notClause 1 none true]

/-- `/\btabata\b/i` (parseTabata cue test). -/
def reTabataCue : List RE := [.wb, .lit "tabata".data, .wb]

/-- `/(\d{1,2})\s*rounds/i` (parseTabata rounds). -/
def reTabRounds : List RE :=
  [.cls isDigitC 1 (some 2) true, .cls isWs 0 none false, .lit "rounds".data]

/-- `/(\d{1,3})\s*s(?:ec)?\s*work/i` (parseTabata / parseGenericIntervals). -/
def reSecWork : List RE :=
  [.cls isDigitC 1 (some 3) true, .cls isWs 0 none false, .lit "s".data,
   .opt [.lit "ec".data], .cls isWs 0 none false, .lit "work".data]

/-- `/(\d{1,3})\s*s(?:ec)?\s*rest/i` (parseTabata / parseGenericIntervals). -/
def reSecRest : List RE :=
  [.cls isDigitC 1 (some 3) true, .cls isWs 0 none false, .lit "s".data,
   .opt [.lit "ec".data], .cls isWs 0 none false, .lit "rest".data]

/-- `/total\s+(\d{1,3})\s+rounds?/i` (parseHiitSequence). -/
def reTotalRounds : List RE :=
  [.lit "total".data, .cls isWs 1 none false, .cls isDigitC 1 (some 3) true,
   .cls isWs 1 none false, .lit "round".data, .cls (chrCI 's') 0 (some 1) false]

/-- `/(\d{1,3})\s+rounds?/i` (parseHiitSequence / parseGenericIntervals). -/
def reRounds : List RE :=
  [.cls isDigitC 1 (some 3) true, .cls isWs 1 none false, .lit "round".data,
   .cls (chrCI 's') 0 (some 1) false]

/-- `/(\d{1,3})\s*s(?:ec)?\s+([^,.;\n]+)/ig` (parseHiitSequence items). -/
def reHiitItem : List RE :=
  [.cls isDigitC 1 (some 3) true, .cls isWs 0 none false, .lit "s".data,
   .opt [.lit "ec".data], .cls isWs 1 none false, .cls notSeqSep 1 none true]

/-- `/rest/i` (several places). -/
def reRest : List RE := [.lit "rest".data]

/-- `/rest[^\d]*(\d{1,3})?/i` (parseHiitSequence rest-amount capture). -/
def reRestNum : List RE :=
  [.lit "rest".data, .cls (fun c => !isDigitC c) 0 none false,
   .cls isDigitC 0 (some 3) true]

/-- `/(\d{1,3})\s*s(?:ec)?\s*(?:work|on)/i` (parseGenericIntervals). -/
def reWorkOn : List RE :=
  [.cls isDigitC 1 (some 3) true, .cls isWs 0 none false, .lit "s".data,
   .opt [.lit "ec".data], .cls isWs 0 none false,
   .alt [.lit "work".data] [.lit "on".data]]

/-- `/(\d{1,3})\s*s(?!.*rest)/i` (parseGenericIntervals, bare seconds with a
negative lookahead; `.` does not cross newlines). -/
def reSNoRest : List RE :=
  [.cls isDigitC 1 (some 3) true, .cls isWs 0 none false, .lit "s".data,
   .nla [.cls anyNoNL 0 none false, .lit "rest".data]]

/-- `/(\d+)\s*min/i` (normalizer text scans). -/
def reNumMin : List RE :=
  [.cls isDigitC 1 none true, .cls isWs 0 none false, .lit "min".data]

/-- `/(\d+)\s*rounds?/i` (normalizer text scans, timeline fallback). -/
def reNumRounds : List RE :=
  [.cls isDigitC 1 none true, .cls isWs 0 none false, .lit "round".data,
   .cls (chrCI 's') 0 (some 1) false]

/-- `/(\d+)\s*s(?:ec)?\s*work/i` (normalizer text scans, timeline fallback). -/
def reNumSecWork : List RE :=
  [.cls isDigitC 1 none true, .cls isWs 0 none false, .lit "s".data,
   .opt [.lit "ec".data], .cls isWs 0 none false, .lit "work".data]

/-- `/(\d+)\s*s(?:ec)?\s*rest/i` (normalizer text scans, timeline fallback). -/
def reNumSecRest : List RE :=
  [.cls isDigitC 1 none true, .cls isWs 0 none false, .lit "s".data,
   .opt [.lit "ec".data], .cls isWs 0 none false, .lit "rest".data]

/-- `/odd[^a-z0-9]+([^.;\n]+)/i` (normalizer text-coercion odd capture). -/
def reOddCoerce : List RE :=
  [.lit "odd".data, .cls nonAlnumCI 1 none false, .cls notClause 1 none true]

/-- `/even[^a-z0-9]+([^.;\n]+)/i` (normalizer text-coercion even capture). -/
def reEvenCoerce : List RE :=
  [.lit "even".data, .cls nonAlnumCI 1 none false, .cls notClause 1 none true]

/-- `/Rest\s+(\d+):(\d+)\s+after\s+each\s+round/i` (parseWorkRestPattern). -/
def reRestAfterRound : List RE :=
  [.lit "rest".data, .cls isWs 1 none false, .cls isDigitC 1 none true,
   .lit ":".data, .cls isDigitC 1 none true, .cls isWs 1 none false,
   .lit "after".data, .cls isWs 1 none false, .lit "each".data,
   .cls isWs 1 none false, .lit "round".data]

/-! ## Data model

The canonical schedule shape produced by the pipeline.  Sequence/exercise
items are kept in their loose (JS-object) form because the normalizer stores
upstream items in blocks unchanged; extractor-built items simply populate the
`name`/`seconds` fields. -/

structure EmomInstr where
  minute_mod : Option String
  name : String
deriving DecidableEq, Repr

/-- A sequence / exercise item as the JS code sees it (all field reads the
sources perform on such items). -/
structure LooseItem where
  name : Option String
  exercise : Option String
  seconds : Option Nat
  duration : Option Nat
  duration_seconds : Option Nat
  rest_after_seconds : Option Nat
  reps : Option Nat
deriving DecidableEq, Repr

/-- A block of a loose AI object (all fields the normalizer reads). -/
structure LooseBlock where
  type : Option String
  minutes : Option Nat
  instructions : Option (List EmomInstr)
  rounds : Option Nat
  sets : Option Nat
  work_seconds : Option Nat
  rest_seconds : Option Nat
  rest_between_rounds_seconds : Option Nat
  exercise : Option String
  sequence : Option (List LooseItem)
  exercises : Option (List LooseItem)
deriving DecidableEq, Repr

structure Cues where
  start : Bool
  halfway : Bool
  last_round : Bool
  tts : Bool
deriving DecidableEq, Repr

structure Debug where
  used_ai : Bool
  inferred_mode : Option String
  notes : Option String
deriving DecidableEq, Repr

/-- A canonical block.  `loose` carries an unrecognized-type block that the
normalizer's already-canonical branch passes through unchanged. -/
inductive Block where
  | emom (minutes : Nat) (instructions : List EmomInstr)
  | tabata (rounds work_seconds rest_seconds : Nat) (exercise : String)
  | circuit (rounds : Nat) (exercises : List LooseItem)
      (rest_between_rounds_seconds : Nat)
  | interval (sets work_seconds rest_seconds : Nat)
      (sequence : Option (List LooseItem))
  | loose (b : LooseBlock)
deriving DecidableEq, Repr

/-- A canonical schedule.  `cues`/`debug` are optional because the
already-canonical normalizer branch copies them from the input, which may
lack them. -/
structure Schedule where
  title : String
  total_minutes : Nat
  blocks : List Block
  cues : Option Cues
  debug : Option Debug
deriving DecidableEq, Repr

/-! ## Deterministic extractors (src/unnamed/part_000, lines 80-157;
identical copies appear in server.js and both README listings) -/

/-- `text.match(re)?.[1]?.trim()` followed by the truthiness test the callers
apply (the empty string is falsy). -/
def capPhrase (pat : List RE) (text : String) : Option String :=
  match reFind pat text.data with
  | none => none
  | some caps =>
    let t := jsTrim (caps.headD [])
    if t.isEmpty then none else some (String.mk t)

/-- `parseEMOM` (part_000 lines 89-107). -/
def parseEMOM (text : String) : Option Schedule :=
  match reCapNat reEmomMin text with
  | none => none
  | some minutes =>
    if reTest reEmomCue text.data ∧ minutes ≠ 0 then
      let odd := capPhrase reOdd text
      let even := capPhrase reEven text
      let instructions : List EmomInstr :=
        (match odd with | some o => [⟨some "odd", o⟩] | none => []) ++
        (match even with | some e => [⟨some "even", e⟩] | none => [])
      let instructions :=
        if instructions.isEmpty then [⟨none, "Work"⟩] else instructions
      some ⟨s!"{minutes}-min EMOM Workout", minutes,
            [.emom minutes instructions],
            some ⟨true, decide (minutes ≥ 10), true, true⟩,
            some ⟨false, some "EMOM", none⟩⟩
    else none

/-- `parseTabata` (part_000 lines 109-121). -/
def parseTabata (text : String) : Option Schedule :=
  if reTest reTabataCue text.data then
    let rounds := jsOrN (reCapNat reTabRounds text) 8
    let work := jsOrN (reCapNat reSecWork text) 20
    let rest := jsOrN (reCapNat reSecRest text) 10
    some ⟨s!"Tabata {rounds}x{work}/{rest}", ceil60 (rounds * (work + rest)),
          [.tabata rounds work rest "Tabata"],
          some ⟨true, decide (rounds ≥ 8), true, true⟩,
          some ⟨false, some "TABATA", none⟩⟩
  else none

/-- The items captured by `parseHiitSequence`'s matchAll (name trimmed,
seconds parsed; such items always populate exactly `name` and `seconds`). -/
def hiitItems (text : String) : List LooseItem :=
  (reAll reHiitItem text.data).map (fun caps =>
    ⟨some (String.mk (jsTrim (caps.getD 1 []))), none,
     some (parseDigits (caps.getD 0 [])), none, none, none, none⟩)

/-- `item.name.toLowerCase().includes("rest")` on a loose item. -/
def itemNameHasRest (it : LooseItem) : Bool :=
  isSubstr "rest".data (lowerStr (jsOrS it.name "").data)

/-- The `rest_between` computation of `parseHiitSequence` (lines 127-131).
The call site guarantees `items` is non-empty; the `getLastD` default is
never used. -/
def hiitRestBetween (text : String) (items : List LooseItem) : Nat :=
  if reTest reRest text.data ∧
      ¬ itemNameHasRest (items.getLastD ⟨some "", none, none, none, none, none, none⟩) then
    match reFind reRestNum text.data with
    | some caps =>
      let c := caps.headD []
      if c.isEmpty then 30 else parseDigits c
    | none => 30
  else 0

/-- `items.reduce((a,b)=>a+b.seconds,0)`; HIIT items always carry `seconds`. -/
def hiitSumSeconds (items : List LooseItem) : Nat :=
  items.foldl (fun a b => a + b.seconds.getD 0) 0

/-- `parseHiitSequence` (part_000 lines 123-139). -/
def parseHiitSequence (text : String) : Option Schedule :=
  match jsOrNOpt (reCapNat reTotalRounds text) (reCapNat reRounds text) with
  | none => none
  | some rounds =>
    let items := hiitItems text
    if rounds = 0 ∨ items.length < 1 then none
    else
      let rest_between := hiitRestBetween text items
      some ⟨s!"HIIT {rounds} rounds",
            ceil60 (rounds * (hiitSumSeconds items + rest_between)),
            [.interval rounds
              ((items.headD ⟨none, none, none, none, none, none, none⟩).seconds.getD 0)
              0 (some items)],
            some ⟨true, decide (rounds ≥ 8), true, true⟩,
            some ⟨false, some "INTERVAL(sequence)", none⟩⟩

/-- `parseGenericIntervals` (part_000 lines 141-153). -/
def parseGenericIntervals (text : String) : Option Schedule :=
  match reCapNat reRounds text with
  | none => none
  | some rounds =>
    match jsOrNOpt (reCapNat reWorkOn text) (reCapNat reSNoRest text) with
    | none => none
    | some work =>
      if rounds = 0 ∨ work = 0 then none
      else
        -- `rest ?? 0` is nullish coalescing: an explicit 0 stays 0.
        let rest0 := (reCapNat reSecRest text).getD 0
        some ⟨s!"{rounds}x{work}/{rest0} Intervals",
              ceil60 (rounds * (work + rest0)),
              [.interval rounds work rest0 none],
              some ⟨true, decide (rounds ≥ 10), true, true⟩,
              some ⟨false, some "INTERVAL", none⟩⟩

/-- `deterministicParse` (part_000 line 155-157; identical in server.js and
the third README listing). -/
def deterministicParse (text : String) : Option Schedule :=
  match parseEMOM text with
  | some s => some s
  | none =>
    match parseTabata text with
    | some s => some s
    | none =>
      match parseHiitSequence text with
      | some s => some s
      | none => parseGenericIntervals text

/-- The hardcoded terminal fallback `fb` (part_000 lines 462-468; the same
object appears in server.js lines 441-448 and both README listings). -/
def fbSchedule : Schedule :=
  ⟨"Fallback 20x40/20", 20, [.interval 20 40 20 none],
   some ⟨true, true, true, true⟩,
   some ⟨false, some "FALLBACK", some "AI parse failed"⟩⟩

/-- The `POST /generate` handler of part_000 on the path where the OpenAI
call threw (the `catch (aiError)` branch, lines 457-470).  The handler is a
total function: no exception can escape. -/
def handleGenerateAIFailed (text : String) : Schedule :=
  match deterministicParse text with
  | some det => det
  | none => fbSchedule

/-! ## parseWorkRestPattern (second README listing, lines 261-318) -/

/-- Split a character list at `'\n'` (JS `split('\n')`: empty pieces kept). -/
def splitOnNl : List Char → List (List Char)
  | [] => [[]]
  | c :: t =>
    if c = '\n' then [] :: splitOnNl t
    else
      match splitOnNl t with
      | [] => [[c]]
      | h :: r => (c :: h) :: r

/-- `text.split('\n').map(l => l.trim()).filter(l => l)`. -/
def splitTrimLines (text : String) : List String :=
  ((splitOnNl text.data).map
    (fun l => String.mk (jsTrim l))).filter (fun l => l ≠ "")

/-- `line.match(/^\d+:/)` used as a boolean. -/
def startsNumColon (l : List Char) : Bool :=
  let ds := l.takeWhile isDigitC
  !ds.isEmpty && (l.drop ds.length).head? = some ':'

def wrSkipKeywords : List String :=
  ["Rounds", "WORK", "REST", "Rest", "after", "each", "round"]

/-- `parseWorkRestPattern` (README lines 261-318).  The `includes` checks are
case-sensitive (plain `String.prototype.includes`, no regex).  `rounds - 1`
is natural subtraction; JS would go negative only for a captured round count
of 0. -/
def parseWorkRestPattern (text : String) : Option Schedule :=
  let lines := splitTrimLines text
  let hasWorkRestPattern := lines.any (fun l =>
    isSubstr ":45 WORK // :15 REST".data l.data ||
    isSubstr "WORK // :15 REST".data l.data)
  let hasRestAfterRounds := lines.any (fun l =>
    isSubstr "Rest".data l.data && isSubstr "after each round".data l.data)
  if ¬ (hasWorkRestPattern ∧ hasRestAfterRounds) then none
  else
    match reFind reNumRounds text.data with
    | none => none
    | some caps =>
      let rounds := parseDigits (caps.headD [])
      let restBetweenRounds :=
        match reFind reRestAfterRound text.data with
        | some rcaps =>
          60 * parseDigits (rcaps.getD 0 []) + parseDigits (rcaps.getD 1 [])
        | none => 150
      let exercises := lines.filter (fun l =>
        l ≠ "" && !(wrSkipKeywords.any (fun k => isSubstr k.data l.data)) &&
        !startsNumColon l.data && !isSubstr "//".data l.data)
      if exercises.isEmpty then none
      else
        let len := exercises.length
        let sequence := exercises.enum.map (fun p =>
          (⟨some p.2, none, some 45, none, none,
            if p.1 < len - 1 then some 15 else none, none⟩ : LooseItem))
        some ⟨s!"{rounds} Rounds Workout",
              ceil60 (rounds * (len * 45 + (len - 1) * 15) +
                (rounds - 1) * restBetweenRounds),
              [.interval rounds 45 restBetweenRounds (some sequence)],
              some ⟨true, decide (rounds ≥ 8), true, true⟩,
              some ⟨false, some "INTERVAL", some "parsed from work/rest pattern"⟩⟩

/-- `deterministicParse` of the second README listing (lines 320-322), whose
chain also tries `parseWorkRestPattern` last. -/
def deterministicParseV2 (text : String) : Option Schedule :=
  match deterministicParse text with
  | some s => some s
  | none => parseWorkRestPattern text

/-- The catch branch of the second README listing's handler. -/
def handleGenerateAIFailedV2 (text : String) : Schedule :=
  match deterministicParseV2 text with
  | some det => det
  | none => fbSchedule

/-! ## Timeline variant (src/server.js, first listing) -/

structure TimelineItem where
  kind : String
  label : String
  seconds : Nat
  round : Option Nat
  index : Option Nat
deriving DecidableEq, Repr

structure TimelineResult where
  title : String
  timeline : List TimelineItem
  total_seconds : Nat
  debug : Option Debug
deriving DecidableEq, Repr

/-- The timeline variant's terminal fallback `fb` (server.js lines 151-159).
Its `debug` object has no `inferred_mode` field. -/
def timelineFb : TimelineResult :=
  ⟨"Fallback Workout",
   [⟨"work", "Work", 30, some 1, some 1⟩, ⟨"rest", "Rest", 15, some 1, some 2⟩],
   45, some ⟨false, none, some "fallback generated"⟩⟩

/-- The round loop of `createFallbackTimeline` (server.js lines 180-185). -/
def fallbackRoundsTimeline (rounds workSeconds restSeconds : Nat) :
    List TimelineItem :=
  ((List.range rounds).map (fun i =>
    let round := i + 1
    if round < rounds then
      [(⟨"work", "Work", workSeconds, some round, some 1⟩ : TimelineItem),
       ⟨"rest", "Rest", restSeconds, some round, some 2⟩]
    else [(⟨"work", "Work", workSeconds, some round, some 1⟩ : TimelineItem)])).flatten

/-- `createFallbackTimeline` (server.js lines 165-200).  The surrounding
try/catch cannot fire on a well-typed input and is dropped. -/
def createFallbackTimeline (text : String) : Option TimelineResult :=
  let rounds := match reCapNat reNumRounds text with
    | some n => n
    | none => 1
  match reFind reNumSecWork text.data with
  | none => none
  | some wcaps =>
    let workSeconds := parseDigits (wcaps.headD [])
    let restSeconds := match reFind reNumSecRest text.data with
      | some rcaps => parseDigits (rcaps.headD [])
      | none => 15
    let timeline := fallbackRoundsTimeline rounds workSeconds restSeconds
    some ⟨s!"{rounds} Round" ++ (if rounds > 1 then "s" else "") ++ " Workout",
          timeline,
          timeline.foldl (fun a it => a + it.seconds) 0,
          some ⟨false, none, some "deterministic fallback"⟩⟩

/-- The timeline variant's handler on the path where the OpenAI call threw
(server.js lines 143-161). -/
def handleTimelineAIFailed (text : String) : TimelineResult :=
  match createFallbackTimeline text with
  | some r => r
  | none => timelineFb

/-! ## Sequence rectifiers -/

/-- First pass of `analyzeAndFixSequence` (part_000 lines 166-174): the
duration of the first rest-named item, if any. -/
def seqFirstRestDuration : List LooseItem → Option Nat
  | [] => none
  | it :: t =>
    if itemNameHasRest it then
      some (jsOrN it.duration (jsOrN it.seconds (jsOrN it.duration_seconds 15)))
    else seqFirstRestDuration t

/-- Second pass of `analyzeAndFixSequence` (part_000 lines 176-195). -/
def fixPass (hasRest : Bool) (restDuration : Nat) :
    List LooseItem → List LooseItem
  | [] => []
  | it :: t =>
    if itemNameHasRest it then fixPass hasRest restDuration t
    else
      let isLastExercise := match t with
        | [] => true
        | nxt :: _ => itemNameHasRest nxt
      (⟨some (jsOrS it.name (jsOrS it.exercise "Work")), none,
        some (jsOrN it.duration (jsOrN it.seconds (jsOrN it.duration_seconds 20))),
        none, none,
        if hasRest && isLastExercise then some restDuration else none,
        none⟩ : LooseItem) :: fixPass hasRest restDuration t

/-- `fixed[fixed.length - 1].rest_after_seconds = n` (on a non-empty list). -/
def setLastRest (l : List LooseItem) (n : Nat) : List LooseItem :=
  match l with
  | [] => []
  | [it] => [{ it with rest_after_seconds := some n }]
  | it :: t => it :: setLastRest t n

/-- `analyzeAndFixSequence` (part_000 lines 159-205).  The JS function
returns non-arrays unchanged; the embedding takes lists only. -/
def analyzeAndFixSequence (sequence : List LooseItem) (text : String) :
    List LooseItem :=
  let restFound := seqFirstRestDuration sequence
  let hasRest := restFound.isSome
  let restDuration := restFound.getD 0
  let fixed := fixPass hasRest restDuration sequence
  if ¬ hasRest ∧ reTest reRest text.data then setLastRest fixed 15 else fixed

/-- The loop of the third README listing's `analyzeAndFixSequence`
(lines 844-871): the rest duration is taken from the specific next rest item
(`nextItem.duration || nextItem.seconds || 15`) and attached only when
positive. -/
def fixPassV3 : List LooseItem → List LooseItem
  | [] => []
  | it :: t =>
    if itemNameHasRest it then fixPassV3 t
    else
      let restAfter := match t with
        | nxt :: _ =>
          if itemNameHasRest nxt then jsOrN nxt.duration (jsOrN nxt.seconds 15)
          else 0
        | [] => 0
      (⟨some (jsOrS it.name (jsOrS it.exercise "Work")), none,
        some (jsOrN it.duration (jsOrN it.seconds (jsOrN it.duration_seconds 20))),
        none, none,
        if restAfter > 0 then some restAfter else none,
        none⟩ : LooseItem) :: fixPassV3 t

/-- `analyzeAndFixSequence` of the third README listing (lines 838-881).
Its `hasRest` flag ends up true exactly when some item is rest-named. -/
def analyzeAndFixSequenceV3 (sequence : List LooseItem) (text : String) :
    List LooseItem :=
  let fixed := fixPassV3 sequence
  let hasRest := sequence.any itemNameHasRest
  if ¬ hasRest ∧ reTest reRest text.data then setLastRest fixed 15 else fixed

/-! ## The loose AI object -/

/-- The loosely-typed object obtained from the provider's JSON, restricted to
every field the normalizers read.  `none` stands for a missing field
(JS `undefined`). -/
structure LooseAI where
  title : Option String
  total_minutes : Option Nat
  type : Option String
  workout_type : Option String
  minutes : Option Nat
  rounds : Option Nat
  sets : Option Nat
  work_seconds : Option Nat
  rest_seconds : Option Nat
  work : Option Nat
  rest : Option Nat
  rest_between_rounds_seconds : Option Nat
  exercise : Option String
  instructions : Option (List EmomInstr)
  sequence : Option (List LooseItem)
  exercises : Option (List LooseItem)
  blocks : Option (List LooseBlock)
  cues : Option Cues
  debug : Option Debug
deriving DecidableEq, Repr

/-- A loose AI object with every field absent (`{}`). -/
def emptyLoose : LooseAI :=
  ⟨none, none, none, none, none, none, none, none, none, none,
   none, none, none, none, none, none, none, none, none⟩

/-! ## Response normalizer of part_000 (lines 207-426) -/

/-- `parseInt(text.match(/(\d+)\s*min/i)?.[1] || "20")`.  The fallback is the
string "20": a captured "0" is a truthy string and yields 0. -/
def emomTextMinutes (text : String) : Nat :=
  match reFind reNumMin text.data with
  | some caps => parseDigits (caps.headD [])
  | none => 20

/-- One step of the `ai.blocks.map(block => ...)` re-validation of the
already-canonical branch (part_000 lines 212-256). -/
def validateBlock (text : String) (b : LooseBlock) : Block :=
  match b.type with
  | some "EMOM" =>
    .emom (jsOrN b.minutes (emomTextMinutes text))
      (b.instructions.getD [⟨none, "Work"⟩])
  | some "TABATA" =>
    .tabata (jsOrN b.rounds 8) (jsOrN b.work_seconds 20)
      (jsOrN b.rest_seconds 10) (jsOrS b.exercise "Mixed")
  | some "CIRCUIT" =>
    .circuit (jsOrN b.rounds (jsOrN b.sets 5))
      (match b.exercises with
       | some exs => exs
       | none => b.sequence.getD [⟨some "Work", none, some 30, none, none, none, none⟩])
      (jsOrN b.rest_between_rounds_seconds (jsOrN b.rest_seconds 0))
  | some "INTERVAL" =>
    (match b.sequence with
     | some seq =>
       if seq.length > 0 then
         .interval (jsOrN b.sets (jsOrN b.rounds 1))
           (jsOrN b.work_seconds
             (jsOrN (seq.headD ⟨none, none, none, none, none, none, none⟩).seconds 20))
           (jsOrN b.rest_seconds 0) (some seq)
       else
         .interval (jsOrN b.sets (jsOrN b.rounds 1)) (jsOrN b.work_seconds 30)
           (jsOrN b.rest_seconds 15) none
     | none =>
       .interval (jsOrN b.sets (jsOrN b.rounds 1)) (jsOrN b.work_seconds 30)
         (jsOrN b.rest_seconds 15) none)
  | _ => .loose b

/-- One step of the `validBlocks.reduce` total computation (part_000 lines
261-274).  Unrecognized blocks add nothing (`return total`).  `r - 1` is
natural subtraction; every circuit the code constructs has `rounds ≥ 1`, so
this agrees with JS.  A sequence item with absent `seconds` would make the JS
sum NaN; it is modeled as 0 here, and every theorem touching this sum assumes
the seconds are present. -/
def blockMinutesCode : Block → Nat
  | .emom m _ => m
  | .tabata r w rs _ => ceil60 (r * (w + rs))
  | .circuit r exs rbs =>
    ceil60 (r * exs.foldl (fun a ex => a + jsOrN ex.seconds 30) 0 + (r - 1) * rbs)
  | .interval sets w rs seqOpt =>
    (match seqOpt with
     | some seq =>
       ceil60 (sets * seq.foldl
         (fun a it => a + (it.seconds.getD 0 + it.rest_after_seconds.getD 0)) 0)
     | none => ceil60 (sets * (w + rs)))
  | .loose _ => 0

/-- Raw-shape EMOM branch (part_000 lines 279-301). -/
def rawEmom (a : LooseAI) (text : String) : Schedule :=
  let minutes := jsOrN a.minutes (emomTextMinutes text)
  let instructions : List EmomInstr :=
    match a.instructions with
    | some ins => ins
    | none =>
      match a.sequence with
      | some seq => seq.map (fun it => ⟨none, jsOrS it.name "Work"⟩)
      | none => [⟨none, "Work"⟩]
  ⟨jsOrS a.title s!"{minutes}-min EMOM", minutes, [.emom minutes instructions],
   some ⟨true, decide (minutes ≥ 10), true, true⟩,
   some ⟨true, some "EMOM", some "normalized from raw AI"⟩⟩

/-- Raw-shape TABATA branch (part_000 lines 303-321). -/
def rawTabata (a : LooseAI) : Schedule :=
  let rounds := jsOrN a.rounds (jsOrN a.sets 8)
  let work := jsOrN a.work_seconds (jsOrN a.work 20)
  let rest := jsOrN a.rest_seconds (jsOrN a.rest 10)
  ⟨jsOrS a.title s!"Tabata {rounds}x{work}/{rest}",
   ceil60 (rounds * (work + rest)),
   [.tabata rounds work rest (jsOrS a.exercise "Mixed")],
   some ⟨true, decide (rounds ≥ 8), true, true⟩,
   some ⟨true, some "TABATA", some "normalized from raw AI"⟩⟩

/-- Raw-shape CIRCUIT branch (part_000 lines 323-340). -/
def rawCircuit (a : LooseAI) : Schedule :=
  let rounds := jsOrN a.rounds (jsOrN a.sets 5)
  let exercises := match a.exercises with
    | some exs => exs
    | none => a.sequence.getD [⟨some "Work", none, some 30, none, none, none, none⟩]
  let restBetween := jsOrN a.rest_between_rounds_seconds (jsOrN a.rest_seconds 0)
  ⟨jsOrS a.title s!"Circuit {rounds} rounds",
   ceil60 (rounds * exercises.foldl (fun s2 ex => s2 + jsOrN ex.seconds 30) 0 +
     (rounds - 1) * restBetween),
   [.circuit rounds exercises restBetween],
   some ⟨true, decide (rounds ≥ 8), true, true⟩,
   some ⟨true, some "CIRCUIT", some "normalized from raw AI"⟩⟩

/-- Raw-shape INTERVAL branch (part_000 lines 342-376). -/
def rawInterval (a : LooseAI) (text : String) : Schedule :=
  let sets := jsOrN a.sets (jsOrN a.rounds 1)
  let work := jsOrN a.work_seconds (jsOrN a.work 30)
  let rest := jsOrN a.rest_seconds (jsOrN a.rest 15)
  match a.sequence with
  | some seq =>
    if seq.length > 0 then
      let sequence := analyzeAndFixSequence seq text
      ⟨jsOrS a.title s!"Interval {sets} sets",
       ceil60 (sets * sequence.foldl
         (fun s2 it => s2 + (it.seconds.getD 0 + it.rest_after_seconds.getD 0)) 0),
       [.interval sets work 0 (some sequence)],
       some ⟨true, decide (sets ≥ 8), true, true⟩,
       some ⟨true, some "INTERVAL(sequence)", some "normalized from raw AI"⟩⟩
    else
      ⟨jsOrS a.title s!"{sets}x{work}/{rest} Intervals",
       ceil60 (sets * (work + rest)), [.interval sets work rest none],
       some ⟨true, decide (sets ≥ 10), true, true⟩,
       some ⟨true, some "INTERVAL", some "normalized from raw AI"⟩⟩
  | none =>
    ⟨jsOrS a.title s!"{sets}x{work}/{rest} Intervals",
     ceil60 (sets * (work + rest)), [.interval sets work rest none],
     some ⟨true, decide (sets ≥ 10), true, true⟩,
     some ⟨true, some "INTERVAL", some "normalized from raw AI"⟩⟩

/-- Text-coercion EMOM branch (part_000 lines 379-399). -/
def coerceEmomFromText (text : String) : Schedule :=
  let minutes := emomTextMinutes text
  let odd := capPhrase reOddCoerce text
  let even := capPhrase reEvenCoerce text
  let instructions : List EmomInstr :=
    (match odd with | some o => [⟨some "odd", o⟩] | none => []) ++
    (match even with | some e => [⟨some "even", e⟩] | none => [])
  let instructions :=
    if instructions.isEmpty then [⟨none, "Work"⟩] else instructions
  ⟨s!"{minutes}-min EMOM Workout", minutes, [.emom minutes instructions],
   some ⟨true, decide (minutes ≥ 10), true, true⟩,
   some ⟨true, some "EMOM", some "coerced from text"⟩⟩

/-- Text-coercion TABATA branch (part_000 lines 401-419). -/
def coerceTabataFromText (text : String) : Schedule :=
  let rounds := match reFind reNumRounds text.data with
    | some c => parseDigits (c.headD [])
    | none => 8
  let work := match reFind reNumSecWork text.data with
    | some c => parseDigits (c.headD [])
    | none => 20
  let rest := match reFind reNumSecRest text.data with
    | some c => parseDigits (c.headD [])
    | none => 10
  ⟨s!"Tabata {rounds}x{work}/{rest}", ceil60 (rounds * (work + rest)),
   [.tabata rounds work rest "Mixed"],
   some ⟨true, decide (rounds ≥ 8), true, true⟩,
   some ⟨true, some "TABATA", some "coerced from text"⟩⟩

/-- The final text-inference section of the part_000 normalizer
(lines 378-421); the trailing `throw` is caught by the function's own
try/catch and surfaces as `null`, modeled as `none`. -/
def normP0Text (text : String) : Option Schedule :=
  if reTest reEmomCue text.data then some (coerceEmomFromText text)
  else if reTest reTabataCue text.data then some (coerceTabataFromText text)
  else none

/-- The raw-shape dispatch of the part_000 normalizer (lines 279-376). -/
def normP0Typed (a : LooseAI) (text : String) : Option Schedule :=
  if a.type = some "EMOM" then some (rawEmom a text)
  else if a.type = some "TABATA" then some (rawTabata a)
  else if a.type = some "CIRCUIT" then some (rawCircuit a)
  else if a.type = some "INTERVAL" then some (rawInterval a text)
  else normP0Text text

/-- `normalizeAIToWorkoutJSON` of part_000 (lines 207-426).  The whole body
is wrapped in try/catch returning `null`; with a well-typed loose object the
only reachable throw is the final explicit one, so the catch is modeled by
the terminal `none`. -/
def normalize_p0 (ai : Option LooseAI) (text : String) : Option Schedule :=
  match ai with
  | some a =>
    (match a.title, a.blocks with
     | some ttl, some bs =>
       let validBlocks := bs.map (validateBlock text)
       some ⟨ttl,
             jsOrN a.total_minutes
               (validBlocks.foldl (fun tot b => tot + blockMinutesCode b) 0),
             validBlocks, a.cues, a.debug⟩
     | _, _ => normP0Typed a text)
  | none => normP0Text text

/-! ## Normalizer of the third README listing (lines 883-948): can throw -/

/-- The result of `normalizeV3`: the first branch returns the loose object
unchanged (`return ai`). -/
inductive V3Out where
  | passthrough (a : LooseAI)
  | sched (s : Schedule)
deriving DecidableEq, Repr

/-- `n || d` applied to an already-computed number. -/
def jsOrNz (n d : Nat) : Nat := if n = 0 then d else n

/-- Sum used for the sequenced-interval totals
(`seq.reduce((a,b)=>a+b.seconds+(b.rest_after_seconds||0),0)`); rectified
items always carry `seconds`. -/
def seqSum (seq : List LooseItem) : Nat :=
  seq.foldl (fun a it => a + (it.seconds.getD 0 + it.rest_after_seconds.getD 0)) 0

/-- EMOM-coercion schedule of the V3 normalizer (lines 927-945). -/
def v3EmomSched (minutes : Nat) (text : String) : Schedule :=
  let odd := capPhrase reOddCoerce text
  let even := capPhrase reEvenCoerce text
  let instr : List EmomInstr :=
    (match odd with | some o => [⟨some "odd", o⟩] | none => []) ++
    (match even with | some e => [⟨some "even", e⟩] | none => [])
  let instr := if instr.isEmpty then [⟨none, "Work"⟩] else instr
  ⟨s!"{minutes}-min EMOM Workout", minutes, [.emom minutes instr],
   some ⟨true, decide (minutes ≥ 10), true, true⟩,
   some ⟨true, some "EMOM", some "coerced due to EMOM text"⟩⟩

/-- Branches after the first return of `normalizeV3` (README lines 892-947).
`Except.error ()` models a thrown exception escaping the function: the
explicit `throw new Error("Unrecognized AI response")`, and the TypeError
from reading `ai.total_minutes` when `ai` is null in the EMOM branch. -/
def normalizeV3After (ai : Option LooseAI) (text : String) : Except Unit V3Out :=
  match (match ai with
         | some a =>
           (match a.blocks with
            | some (b0 :: _) =>
              (match b0.exercises with
               | some exs => some (a, b0, exs)
               | none => none)
            | _ => none)
         | none => none) with
  | some (a, b0, exs) =>
    let seq := analyzeAndFixSequenceV3 exs text
    let sets := jsOrN b0.rounds 1
    let work := jsOrN (seq.head?.bind (fun it => it.seconds)) 20
    .ok (.sched ⟨jsOrS a.title "Intervals",
      jsOrN a.total_minutes (jsOrNz (ceil60 (sets * seqSum seq)) 10),
      [.interval sets work 0 (some seq)],
      some ⟨true, decide (sets ≥ 8), true, true⟩,
      some ⟨true, some "INTERVAL(sequence)",
        some "normalized blocks/exercises format"⟩⟩)
  | none =>
    match (match ai with
           | some a =>
             if a.workout_type = some "INTERVAL" then
               (match a.exercises with
                | some exs => some (a, exs)
                | none => none)
             else none
           | none => none) with
    | some (a, exs) =>
      let seq := analyzeAndFixSequenceV3 exs text
      let sets := jsOrN a.rounds (jsOrN a.sets 1)
      let work := jsOrN (seq.head?.bind (fun it => it.seconds)) 20
      .ok (.sched ⟨jsOrS a.title "Intervals",
        jsOrN a.total_minutes (jsOrNz (ceil60 (sets * seqSum seq)) 10),
        [.interval sets work 0 (some seq)],
        some ⟨true, decide (sets ≥ 8), true, true⟩,
        some ⟨true, some "INTERVAL(sequence)",
          some "normalized workout_type/exercises"⟩⟩)
    | none =>
      if reTest reEmomCue text.data then
        match reFind reEmomMin text.data with
        | some caps => .ok (.sched (v3EmomSched (parseDigits (caps.headD [])) text))
        | none =>
          match ai with
          | none => .error ()
          | some a => .ok (.sched (v3EmomSched (jsOrN a.total_minutes 20) text))
      else .error ()

/-- `normalizeAIToWorkoutJSON` of the third README listing (lines 883-948).
Only the first shape test sits inside a `try { ... } catch {}`; the rest of
the body is unguarded, so its throws escape to the caller. -/
def normalizeV3 (ai : Option LooseAI) (text : String) : Except Unit V3Out :=
  match ai with
  | some a =>
    if a.title.isSome ∧ a.blocks.isSome then .ok (.passthrough a)
    else normalizeV3After ai text
  | none => normalizeV3After none text

/-! ## Request coercion (all handler variants) -/

/-- The `POST /generate` body shape the handlers read. -/
structure GenBody where
  text : Option String
deriving DecidableEq, Repr

/-- `const body = req.body || {}; const text = String(body.text || "");`
(part_000 lines 431-432, server.js lines 76-77 and 409-410). -/
def requestText (body : Option GenBody) : String :=
  match body with
  | none => jsOrS none ""
  | some b => jsOrS b.text ""

/-! ## Spec-modelled definitions (for refinement comparison) -/

/-- Modelled from the spec: the §4.3 duration table.  EMOM contributes its
minutes; TABATA `ceil(rounds*(work+rest)/60)`; CIRCUIT
`ceil((rounds*sum(exercise.seconds)+(rounds-1)*rest_between)/60)`; simple
INTERVAL `ceil(sets*(work+rest)/60)`; sequenced INTERVAL
`ceil(sets*sum(item.seconds+(item.rest_after_seconds or 0))/60)`.  The table
presumes canonical items (seconds present); an absent `seconds` counts 0.
The table has no entry for an unrecognized block, which contributes 0. -/
def specBlockMinutes : Block → Nat
  | .emom m _ => m
  | .tabata r w rs _ => ceil60 (r * (w + rs))
  | .circuit r exs rbs =>
    ceil60 (r * exs.foldl (fun a ex => a + ex.seconds.getD 0) 0 + (r - 1) * rbs)
  | .interval sets w rs seqOpt =>
    (match seqOpt with
     | some seq =>
       ceil60 (sets * seq.foldl
         (fun a it => a + (it.seconds.getD 0 + it.rest_after_seconds.getD 0)) 0)
     | none => ceil60 (sets * (w + rs)))
  | .loose _ => 0

/-- Modelled from the spec: a schedule's recomputed total is the sum of its
block durations under the §4.3 table. -/
def specTotalMinutes (blocks : List Block) : Nat :=
  blocks.foldl (fun a b => a + specBlockMinutes b) 0

/-- Structural validity of a canonical block: positive repetition counts and,
for EMOM, a non-empty instruction list. -/
def validBlockB : Block → Bool
  | .emom m ins => decide (0 < m) && !ins.isEmpty
  | .tabata r w rs _ => decide (0 < r) && decide (0 < w) && decide (0 < rs)
  | .circuit r _ _ => decide (0 < r)
  | .interval sets _ _ _ => decide (0 < sets)
  | .loose _ => false

/-- A valid canonical schedule: a non-empty block list of valid blocks. -/
def validSchedule (s : Schedule) : Bool :=
  !s.blocks.isEmpty && s.blocks.all validBlockB

/-! ## Embedding canonical blocks back into loose form (for the idempotence
claims about the already-canonical normalizer branch) -/

/-- A canonical block written as the loose JS object carrying exactly the
canonical fields. -/
def blockToLoose : Block → LooseBlock
  | .emom m ins =>
    ⟨some "EMOM", some m, some ins, none, none, none, none, none, none, none, none⟩
  | .tabata r w rs ex =>
    ⟨some "TABATA", none, none, some r, none, some w, some rs, none, some ex, none, none⟩
  | .circuit r exs rbs =>
    ⟨some "CIRCUIT", none, none, some r, none, none, none, some rbs, none, none, some exs⟩
  | .interval sets w rs seqOpt =>
    ⟨some "INTERVAL", none, none, none, some sets, some w, some rs, none, none, seqOpt, none⟩
  | .loose lb => lb

/-- Sufficient conditions under which the already-canonical branch's
archetype defaulting leaves a block unchanged for every text AND its inline
duration computation agrees with the §4.3 table.  This is narrower than the
spec's notion of a well-formed canonical block: in particular a simple
INTERVAL with `rest_seconds = 0` is canonical (the generic extractor emits
such blocks) but is excluded here, because the branch rewrites its rest to
the 15-second default (`block.rest_seconds || 15`); likewise an empty TABATA
exercise name would come back as "Mixed", and a circuit exercise without
explicit positive seconds would make the inline sum (`ex.seconds || 30`)
differ from the table.  The C9 theorem discloses the rest-0 rewrite
explicitly. -/
def blockPreserved : Block → Bool
  | .emom m _ => decide (0 < m)
  | .tabata r w rs ex =>
    decide (0 < r) && decide (0 < w) && decide (0 < rs) && !(ex = "")
  | .circuit r exs _ =>
    decide (0 < r) && exs.all (fun it =>
      match it.seconds with
      | some s2 => decide (0 < s2)
      | none => false)
  | .interval sets w rs seqOpt =>
    decide (0 < sets) && decide (0 < w) &&
    (match seqOpt with
     | some seq => !seq.isEmpty
     | none => decide (0 < rs))
  | .loose _ => false

/-- A canonical schedule written as a loose AI object (title string, blocks
array, optionally a `total_minutes`). -/
def looseOfSched (ttl : String) (tm : Option Nat) (blocks : List Block) : LooseAI :=
  { emptyLoose with
    title := some ttl, total_minutes := tm,
    blocks := some (blocks.map blockToLoose) }

/-- No dispatch branch of the part_000 normalizer applies to the input: it is
not already-canonical, carries no recognized raw `type`, and the text has
neither an EMOM nor a tabata cue. -/
def p0Unrecognized (ai : Option LooseAI) (text : String) : Bool :=
  (match ai with
   | none => true
   | some a =>
     !(a.title.isSome && a.blocks.isSome) &&
     a.type != some "EMOM" && a.type != some "TABATA" &&
     a.type != some "CIRCUIT" && a.type != some "INTERVAL") &&
  !reTest reEmomCue text.data && !reTest reTabataCue text.data

/-! ## Concrete objects used by the claim theorems -/

/-- What `parseHiitSequence` actually returns on
`"4 rounds: 30s squats. Rest 45"`: the inferred 45-second between-round rest
enters `total_minutes` but not the block. -/
def c1Cx : Schedule :=
  ⟨"HIIT 4 rounds", 5,
   [.interval 4 30 0 (some [⟨some "squats", none, some 30, none, none, none, none⟩])],
   some ⟨true, false, true, true⟩,
   some ⟨false, some "INTERVAL(sequence)", none⟩⟩

/-- What `parseHiitSequence` returns on `"2 rounds: 30s squats"` (no rest
mentioned, so the inferred between-round rest is 0). -/
def c1Wit : Schedule :=
  ⟨"HIIT 2 rounds", 1,
   [.interval 2 30 0 (some [⟨some "squats", none, some 30, none, none, none, none⟩])],
   some ⟨true, false, true, true⟩,
   some ⟨false, some "INTERVAL(sequence)", none⟩⟩

/-- What the extractor chain returns on `"EMOM tabata"`: the EMOM extractor
declines (no minute count) and the TABATA extractor wins with defaults. -/
def c4Cx : Schedule :=
  ⟨"Tabata 8x20/10", 4, [.tabata 8 20 10 "Tabata"],
   some ⟨true, true, true, true⟩,
   some ⟨false, some "TABATA", none⟩⟩

/-- What `parseEMOM` actually returns on
`"EMOM 20 min: odd 12 burpees, even 45s plank"`: the odd capture runs to the
end of the string because a comma is not a clause boundary. -/
def c5Actual : Schedule :=
  ⟨"20-min EMOM Workout", 20,
   [.emom 20 [⟨some "odd", "12 burpees, even 45s plank"⟩,
              ⟨some "even", "45s plank"⟩]],
   some ⟨true, true, true, true⟩,
   some ⟨false, some "EMOM", none⟩⟩

/-- The instruction list the claim C5 scenario expects. -/
def c5Claimed : List EmomInstr :=
  [⟨some "odd", "12 burpees"⟩, ⟨some "even", "45s plank"⟩]

/-- What `parseWorkRestPattern` returns on the newline-separated form of the
claim C6 scenario. -/
def c6Sched : Schedule :=
  ⟨"4 Rounds Workout", 15,
   [.interval 4 45 150
     (some [⟨some "Run", none, some 45, none, none, some 15, none⟩,
            ⟨some "Squat", none, some 45, none, none, none, none⟩])],
   some ⟨true, false, true, true⟩,
   some ⟨false, some "INTERVAL", some "parsed from work/rest pattern"⟩⟩

/-- The raw sequence of the claim C7 scenario. -/
def c7seq : List LooseItem :=
  [⟨some "Burpees", none, some 20, none, none, none, none⟩,
   ⟨some "Rest", none, some 15, none, none, none, none⟩,
   ⟨some "Squats", none, some 20, none, none, none, none⟩]

/-- `analyzeAndFixSequence` (part_000) on the C7 sequence: the globally
detected 15-second rest is attached to every rest-bounded last exercise,
here both Burpees and Squats. -/
def c7out : List LooseItem :=
  [⟨some "Burpees", none, some 20, none, none, some 15, none⟩,
   ⟨some "Squats", none, some 20, none, none, some 15, none⟩]

/-- The third README listing's rectifier on the C7 sequence: the rest is
attached only to the exercise immediately before the rest item. -/
def c7outV3 : List LooseItem :=
  [⟨some "Burpees", none, some 20, none, none, some 15, none⟩,
   ⟨some "Squats", none, some 20, none, none, none, none⟩]

/-- No item of the list is rest-named. -/
def noRestItems (l : List LooseItem) : Bool :=
  l.all (fun it => !itemNameHasRest it)

/-- What `parseGenericIntervals` returns on `"10 rounds 30s work"`: a
canonical schedule whose single simple INTERVAL block has
`rest_seconds = 0` - a block the already-canonical branch does not leave
unchanged. -/
def c9Generic : Schedule :=
  ⟨"10x30/0 Intervals", 5, [.interval 10 30 0 none],
   some ⟨true, true, true, true⟩,
   some ⟨false, some "INTERVAL", none⟩⟩

/-! ## Helper lemmas -/

theorem jsOrN_pos (a : Option Nat) (d : Nat) (hd : 0 < d) : 0 < jsOrN a d := by
  unfold jsOrN
  cases a with
  | none => exact hd
  | some n =>
    by_cases h : n = 0
    · simp [h, hd]
    · simp [h]
      omega

theorem jsOrN_some_ne (n d : Nat) (h : n ≠ 0) : jsOrN (some n) d = n := by
  simp [jsOrN, h]

theorem jsOrN_some_zero_default (n : Nat) : jsOrN (some n) 0 = n := by
  by_cases h : n = 0
  · simp [jsOrN, h]
  · simp [jsOrN, h]

/-- `parseEMOM` satisfies the §4.3 recomputation equation. -/
theorem parseEMOM_recompute (t : String) (s : Schedule)
    (h : parseEMOM t = some s) :
    s.total_minutes = specTotalMinutes s.blocks := by
  unfold parseEMOM at h
  cases h1 : reCapNat reEmomMin t with
  | none => rw [h1] at h; exact absurd h (by simp)
  | some m =>
    rw [h1] at h
    simp only [] at h
    split at h
    · injection h with h2
      subst h2
      simp [specTotalMinutes, specBlockMinutes]
    · exact absurd h (by simp)

/-- `parseTabata` satisfies the §4.3 recomputation equation. -/
theorem parseTabata_recompute (t : String) (s : Schedule)
    (h : parseTabata t = some s) :
    s.total_minutes = specTotalMinutes s.blocks := by
  unfold parseTabata at h
  split at h
  · injection h with h2
    subst h2
    simp [specTotalMinutes, specBlockMinutes]
  · exact absurd h (by simp)

/-- `parseGenericIntervals` satisfies the §4.3 recomputation equation. -/
theorem parseGeneric_recompute (t : String) (s : Schedule)
    (h : parseGenericIntervals t = some s) :
    s.total_minutes = specTotalMinutes s.blocks := by
  unfold parseGenericIntervals at h
  cases h1 : reCapNat reRounds t with
  | none => rw [h1] at h; exact absurd h (by simp)
  | some rounds =>
    rw [h1] at h
    cases h2 : jsOrNOpt (reCapNat reWorkOn t) (reCapNat reSNoRest t) with
    | none => rw [h2] at h; exact absurd h (by simp)
    | some work =>
      rw [h2] at h
      simp only [] at h
      split at h
      · exact absurd h (by simp)
      · injection h with h3
        subst h3
        simp [specTotalMinutes, specBlockMinutes]

/-- Every item produced by the HIIT matchAll carries no
`rest_after_seconds`. -/
theorem hiitItems_ra_none (t : String) :
    ∀ it ∈ hiitItems t, it.rest_after_seconds = none := by
  intro it hit
  unfold hiitItems at hit
  obtain ⟨caps, _, rfl⟩ := List.mem_map.1 hit
  rfl

/-- On items without `rest_after_seconds` the sequenced-interval sum of the
duration table agrees with the plain seconds sum of the HIIT extractor. -/
theorem seqFold_eq_hiitSum (l : List LooseItem)
    (h : ∀ it ∈ l, it.rest_after_seconds = none) :
    ∀ acc : Nat,
      l.foldl (fun a it => a + (it.seconds.getD 0 + it.rest_after_seconds.getD 0)) acc
        = l.foldl (fun a b => a + b.seconds.getD 0) acc := by
  induction l with
  | nil => intro acc; rfl
  | cons it t ih =>
    intro acc
    simp only [List.foldl]
    rw [h it (by simp)]
    exact ih (fun x hx => h x (by simp [hx])) _

/-- `parseHiitSequence` satisfies the recomputation equation exactly when the
inferred between-round rest is 0. -/
theorem parseHiit_recompute (t : String) (s : Schedule)
    (h : parseHiitSequence t = some s)
    (h0 : hiitRestBetween t (hiitItems t) = 0) :
    s.total_minutes = specTotalMinutes s.blocks := by
  unfold parseHiitSequence at h
  cases h1 : jsOrNOpt (reCapNat reTotalRounds t) (reCapNat reRounds t) with
  | none => rw [h1] at h; exact absurd h (by simp)
  | some rounds =>
    rw [h1] at h
    simp only [] at h
    split at h
    · exact absurd h (by simp)
    · rw [h0] at h
      injection h with h2
      subst h2
      simp only [specTotalMinutes, specBlockMinutes, List.foldl]
      rw [seqFold_eq_hiitSum (hiitItems t) (hiitItems_ra_none t) 0]
      simp [hiitSumSeconds]

theorem ceil60_le_ceil60 {a b : Nat} (h : a ≤ b) : ceil60 a ≤ ceil60 b := by
  unfold ceil60
  exact Nat.div_le_div_right (by omega)

/-- The HIIT extractor's total is never below the §4.3 recomputation: it is
`ceil(sets * (sequence seconds + inferred rest) / 60)`, and dropping the
inferred rest can only shrink the argument of the ceiling. -/
theorem parseHiit_total_ge (t : String) (s : Schedule)
    (h : parseHiitSequence t = some s) :
    specTotalMinutes s.blocks ≤ s.total_minutes := by
  unfold parseHiitSequence at h
  cases h1 : jsOrNOpt (reCapNat reTotalRounds t) (reCapNat reRounds t) with
  | none => rw [h1] at h; exact absurd h (by simp)
  | some rounds =>
    rw [h1] at h
    simp only [] at h
    split at h
    · exact absurd h (by simp)
    · injection h with h2
      subst h2
      simp only [specTotalMinutes, specBlockMinutes, List.foldl]
      rw [seqFold_eq_hiitSum (hiitItems t) (hiitItems_ra_none t) 0]
      simp only [hiitSumSeconds, Nat.zero_add]
      exact ceil60_le_ceil60 (Nat.mul_le_mul_left _ (Nat.le_add_right _ _))

/-- Whatever `parseEMOM` produces is a valid schedule. -/
theorem parseEMOM_valid (t : String) (s : Schedule)
    (h : parseEMOM t = some s) : validSchedule s = true := by
  unfold parseEMOM at h
  cases h1 : reCapNat reEmomMin t with
  | none => rw [h1] at h; exact absurd h (by simp)
  | some m =>
    rw [h1] at h
    simp only [] at h
    split at h
    case isTrue hg =>
      injection h with h2
      subst h2
      cases capPhrase reOdd t <;> cases capPhrase reEven t <;>
        simp [validSchedule, validBlockB] <;> omega
    case isFalse => exact absurd h (by simp)

/-- Whatever `parseTabata` produces is a valid schedule. -/
theorem parseTabata_valid (t : String) (s : Schedule)
    (h : parseTabata t = some s) : validSchedule s = true := by
  unfold parseTabata at h
  split at h
  · injection h with h2
    subst h2
    simp only [validSchedule, validBlockB, List.isEmpty_cons, Bool.not_false,
      Bool.true_and, List.all_cons, List.all_nil, Bool.and_true]
    have h8 := jsOrN_pos (reCapNat reTabRounds t) 8 (by omega)
    have h20 := jsOrN_pos (reCapNat reSecWork t) 20 (by omega)
    have h10 := jsOrN_pos (reCapNat reSecRest t) 10 (by omega)
    simp [h8, h20, h10]
  · exact absurd h (by simp)

/-- Whatever `parseHiitSequence` produces is a valid schedule. -/
theorem parseHiit_valid (t : String) (s : Schedule)
    (h : parseHiitSequence t = some s) : validSchedule s = true := by
  unfold parseHiitSequence at h
  cases h1 : jsOrNOpt (reCapNat reTotalRounds t) (reCapNat reRounds t) with
  | none => rw [h1] at h; exact absurd h (by simp)
  | some rounds =>
    rw [h1] at h
    simp only [] at h
    split at h
    · exact absurd h (by simp)
    case isFalse hg =>
      injection h with h2
      subst h2
      simp [validSchedule, validBlockB]
      omega

/-- Whatever `parseGenericIntervals` produces is a valid schedule. -/
theorem parseGeneric_valid (t : String) (s : Schedule)
    (h : parseGenericIntervals t = some s) : validSchedule s = true := by
  unfold parseGenericIntervals at h
  cases h1 : reCapNat reRounds t with
  | none => rw [h1] at h; exact absurd h (by simp)
  | some rounds =>
    rw [h1] at h
    cases h2 : jsOrNOpt (reCapNat reWorkOn t) (reCapNat reSNoRest t) with
    | none => rw [h2] at h; exact absurd h (by simp)
    | some work =>
      rw [h2] at h
      simp only [] at h
      split at h
      · exact absurd h (by simp)
      case isFalse hg =>
        injection h with h3
        subst h3
        simp [validSchedule, validBlockB]
        omega

/-- Whatever the extractor chain produces is a valid schedule. -/
theorem deterministicParse_valid (t : String) (s : Schedule)
    (h : deterministicParse t = some s) : validSchedule s = true := by
  unfold deterministicParse at h
  cases h1 : parseEMOM t with
  | some s1 => rw [h1] at h; injection h with h2; subst h2; exact parseEMOM_valid t _ h1
  | none =>
    rw [h1] at h
    cases h2 : parseTabata t with
    | some s2 => rw [h2] at h; injection h with h3; subst h3; exact parseTabata_valid t _ h2
    | none =>
      rw [h2] at h
      cases h3 : parseHiitSequence t with
      | some s3 => rw [h3] at h; injection h with h4; subst h4; exact parseHiit_valid t _ h3
      | none =>
        rw [h3] at h
        exact parseGeneric_valid t _ h

/-- The terminal fallback is a valid schedule. -/
theorem fbSchedule_valid : validSchedule fbSchedule = true := by decide

/-- If the EMOM extractor matches, the chain returns its output unchanged. -/
theorem deterministicParse_emom_first (t : String) (s : Schedule)
    (h : parseEMOM t = some s) : deterministicParse t = some s := by
  unfold deterministicParse
  rw [h]

/-- The EMOM extractor succeeds exactly on a cue plus a nonzero captured
minute count. -/
theorem parseEMOM_isSome (t : String) (m : Nat)
    (hc : reTest reEmomCue t.data = true)
    (hm : reCapNat reEmomMin t = some m) (h0 : m ≠ 0) :
    (parseEMOM t).isSome = true := by
  unfold parseEMOM
  rw [hm]
  simp [hc, h0]

/-- Whatever the EMOM extractor produces carries the EMOM debug mode. -/
theorem parseEMOM_debug (t : String) (s : Schedule)
    (h : parseEMOM t = some s) :
    s.debug = some ⟨false, some "EMOM", none⟩ := by
  unfold parseEMOM at h
  cases h1 : reCapNat reEmomMin t with
  | none => rw [h1] at h; exact absurd h (by simp)
  | some m =>
    rw [h1] at h
    simp only [] at h
    split at h
    · injection h with h2
      subst h2
      rfl
    · exact absurd h (by simp)

/-- On a well-formed canonical block, the already-canonical branch's
re-validation is the identity. -/
theorem validateBlock_toLoose (text : String) (b : Block)
    (hwf : blockPreserved b = true) : validateBlock text (blockToLoose b) = b := by
  cases b with
  | emom m ins =>
    simp only [blockPreserved, decide_eq_true_eq] at hwf
    have hm : m ≠ 0 := by omega
    simp [validateBlock, blockToLoose, jsOrN, hm]
  | tabata r w rs ex =>
    simp only [blockPreserved, Bool.and_eq_true, decide_eq_true_eq] at hwf
    obtain ⟨⟨⟨hr, hw⟩, hrs⟩, hex⟩ := hwf
    have hr' : r ≠ 0 := by omega
    have hw' : w ≠ 0 := by omega
    have hrs' : rs ≠ 0 := by omega
    have hex' : ¬ (ex = "") := by simpa using hex
    simp [validateBlock, blockToLoose, jsOrN, jsOrS, hr', hw', hrs', hex']
  | circuit r exs rbs =>
    simp only [blockPreserved, Bool.and_eq_true, decide_eq_true_eq] at hwf
    have hr' : r ≠ 0 := by omega
    by_cases hrbs : rbs = 0 <;>
      simp [validateBlock, blockToLoose, jsOrN, hr', hrbs]
  | interval sets w rs seqOpt =>
    cases seqOpt with
    | some seq =>
      simp only [blockPreserved, Bool.and_eq_true, decide_eq_true_eq] at hwf
      obtain ⟨⟨hs, hw⟩, hseq⟩ := hwf
      have hs' : sets ≠ 0 := by omega
      have hw' : w ≠ 0 := by omega
      have hlen : seq.length > 0 := by
        cases seq with
        | nil => simp at hseq
        | cons a t => simp
      by_cases hrs : rs = 0 <;>
        simp [validateBlock, blockToLoose, jsOrN, hs', hw', hrs, hlen]
    | none =>
      simp only [blockPreserved, Bool.and_eq_true, decide_eq_true_eq] at hwf
      obtain ⟨⟨hs, hw⟩, hrs⟩ := hwf
      have hs' : sets ≠ 0 := by omega
      have hw' : w ≠ 0 := by omega
      have hrs' : rs ≠ 0 := by omega
      simp [validateBlock, blockToLoose, jsOrN, hs', hw', hrs']
  | loose lb => simp [blockPreserved] at hwf

/-- On circuit exercises with explicit positive seconds, the code's
30-second default never fires, so its sum equals the plain seconds sum. -/
theorem circuitFold_eq (exs : List LooseItem)
    (h : ∀ it ∈ exs,
      (match it.seconds with
       | some s2 => decide (0 < s2)
       | none => false) = true) :
    ∀ acc : Nat,
      exs.foldl (fun a ex => a + jsOrN ex.seconds 30) acc
        = exs.foldl (fun a ex => a + ex.seconds.getD 0) acc := by
  induction exs with
  | nil => intro acc; rfl
  | cons it t ih =>
    intro acc
    have hit := h it (by simp)
    simp only [List.foldl]
    cases hsec : it.seconds with
    | none => rw [hsec] at hit; simp at hit
    | some s2 =>
      rw [hsec] at hit
      simp only [decide_eq_true_eq] at hit
      have hs2 : s2 ≠ 0 := by omega
      rw [show jsOrN (some s2) 30 = s2 from by simp [jsOrN, hs2]]
      exact ih (fun x hx => h x (by simp [hx])) _

/-- On a well-formed block, the code's total contribution equals the §4.3
table entry. -/
theorem blockMinutes_eq_spec (b : Block) (hwf : blockPreserved b = true) :
    blockMinutesCode b = specBlockMinutes b := by
  cases b with
  | emom m ins => rfl
  | tabata r w rs ex => rfl
  | circuit r exs rbs =>
    simp only [blockPreserved, Bool.and_eq_true] at hwf
    obtain ⟨_, hall⟩ := hwf
    simp only [blockMinutesCode, specBlockMinutes]
    rw [circuitFold_eq exs (by simpa [List.all_eq_true] using hall) 0]
  | interval sets w rs seqOpt => cases seqOpt <;> rfl
  | loose lb => simp [blockPreserved] at hwf

/-- Mapping re-validation over the loose embedding of well-formed blocks is
the identity. -/
theorem mapValidate_toLoose (text : String) (blocks : List Block)
    (h : ∀ b ∈ blocks, blockPreserved b = true) :
    (blocks.map blockToLoose).map (validateBlock text) = blocks := by
  induction blocks with
  | nil => rfl
  | cons b t ih =>
    simp only [List.map_cons, List.cons.injEq]
    exact ⟨validateBlock_toLoose text b (h b (by simp)),
           ih (fun x hx => h x (by simp [hx]))⟩

/-- On well-formed blocks the code's total fold equals the §4.3 fold. -/
theorem foldCode_eq_spec (blocks : List Block)
    (h : ∀ b ∈ blocks, blockPreserved b = true) :
    ∀ acc : Nat,
      blocks.foldl (fun tot b => tot + blockMinutesCode b) acc
        = blocks.foldl (fun a b => a + specBlockMinutes b) acc := by
  induction blocks with
  | nil => intro acc; rfl
  | cons b t ih =>
    intro acc
    simp only [List.foldl]
    rw [blockMinutes_eq_spec b (h b (by simp))]
    exact ih (fun x hx => h x (by simp [hx])) _

/-- The already-canonical branch of the part_000 normalizer, unfolded. -/
theorem normalize_p0_canonical (text ttl : String) (tm : Option Nat)
    (blocks : List Block) :
    normalize_p0 (some (looseOfSched ttl tm blocks)) text =
      some ⟨ttl,
            jsOrN tm (((blocks.map blockToLoose).map (validateBlock text)).foldl
              (fun tot b => tot + blockMinutesCode b) 0),
            (blocks.map blockToLoose).map (validateBlock text),
            none, none⟩ := rfl

/-- The already-canonical branch on a well-formed canonical schedule: blocks
come back identical and the computed total is the upstream value, defaulted
to the §4.3 recomputation when it is falsy. -/
theorem normalize_p0_wf (text ttl : String) (tm : Option Nat)
    (blocks : List Block) (h : ∀ b ∈ blocks, blockPreserved b = true) :
    normalize_p0 (some (looseOfSched ttl tm blocks)) text =
      some ⟨ttl, jsOrN tm (specTotalMinutes blocks), blocks, none, none⟩ := by
  rw [normalize_p0_canonical, mapValidate_toLoose text blocks h,
      foldCode_eq_spec blocks h 0]
  rfl

/-- When no dispatch branch applies, the part_000 normalizer returns `none`
(the trailing throw is caught inside the function). -/
theorem normalize_p0_unrecognized (ai : Option LooseAI) (text : String)
    (h : p0Unrecognized ai text = true) : normalize_p0 ai text = none := by
  unfold p0Unrecognized at h
  simp only [Bool.and_eq_true, Bool.not_eq_true'] at h
  obtain ⟨⟨hmatch, hemom⟩, htabata⟩ := h
  have htext : normP0Text text = none := by
    simp [normP0Text, hemom, htabata]
  cases ai with
  | none => simpa [normalize_p0] using htext
  | some a =>
    simp only [Bool.and_eq_true, bne_iff_ne, Bool.not_eq_true'] at hmatch
    obtain ⟨⟨⟨⟨hcan, hE⟩, hT⟩, hC⟩, hI⟩ := hmatch
    have htyped : normP0Typed a text = none := by
      simp [normP0Typed, hE, hT, hC, hI, htext]
    obtain ⟨ti, tm2, ty, wty, mins, rnds, sts, ws, rsx, wk, rst, rbrs, exn,
      ins, sq, exs, bls, cs, dbg⟩ := a
    cases ti with
    | none => cases bls <;> simp [normalize_p0, htyped]
    | some ttl =>
      cases bls with
      | none => simp [normalize_p0, htyped]
      | some bs => simp at hcan

/-! ## Claim theorems -/

/-- C1, counterexample: on `"4 rounds: 30s squats. Rest 45"` the extractor
chain answers via the HIIT-sequence extractor with `total_minutes = 5`, but
the §4.3 recomputation over its single block gives 2 - the inferred
45-second between-round rest enters the total without being recorded in the
block, so the recomputation invariant fails on this path. -/
theorem C1_recompute_counterexample :
    deterministicParse "4 rounds: 30s squats. Rest 45" = some c1Cx ∧
    c1Cx.total_minutes = 5 ∧ specTotalMinutes c1Cx.blocks = 2 :=
  ⟨by decide, rfl, rfl⟩

/-- C1, amended: the EMOM, TABATA and generic-interval extractors and the
terminal fallback satisfy `total_minutes = ceil(sum of block durations per
the §4.3 table / 60)`.  The HIIT-sequence extractor's total also counts the
inferred between-round rest, which the block does not record: its
`total_minutes` is always at least the §4.3 recomputation, equals it
whenever the inferred rest is zero, and can exceed it when the rest is
nonzero (counterexample) - though a small nonzero rest may still be
absorbed by the ceiling. -/
theorem C1_recompute_amended :
    (∀ t s, parseEMOM t = some s → s.total_minutes = specTotalMinutes s.blocks) ∧
    (∀ t s, parseTabata t = some s → s.total_minutes = specTotalMinutes s.blocks) ∧
    (∀ t s, parseGenericIntervals t = some s →
      s.total_minutes = specTotalMinutes s.blocks) ∧
    fbSchedule.total_minutes = specTotalMinutes fbSchedule.blocks ∧
    (∀ t s, parseHiitSequence t = some s →
      specTotalMinutes s.blocks ≤ s.total_minutes) ∧
    (∀ t s, parseHiitSequence t = some s →
      hiitRestBetween t (hiitItems t) = 0 →
      s.total_minutes = specTotalMinutes s.blocks) :=
  ⟨parseEMOM_recompute, parseTabata_recompute, parseGeneric_recompute,
   by decide, parseHiit_total_ge, parseHiit_recompute⟩

/-- C1, witness: the HIIT equality conjunct applied at
`"2 rounds: 30s squats"`, where no between-round rest is inferred, and the
lower-bound conjunct applied at the counterexample input, where the total
(5) strictly exceeds the recomputation (2). -/
theorem C1_recompute_witness :
    parseHiitSequence "2 rounds: 30s squats" = some c1Wit ∧
    hiitRestBetween "2 rounds: 30s squats" (hiitItems "2 rounds: 30s squats") = 0 ∧
    c1Wit.total_minutes = specTotalMinutes c1Wit.blocks ∧
    parseHiitSequence "4 rounds: 30s squats. Rest 45" = some c1Cx ∧
    specTotalMinutes c1Cx.blocks ≤ c1Cx.total_minutes :=
  ⟨by decide, by decide,
   C1_recompute_amended.2.2.2.2.2 "2 rounds: 30s squats" c1Wit
     (by decide) (by decide),
   by decide,
   C1_recompute_amended.2.2.2.2.1 "4 rounds: 30s squats. Rest 45" c1Cx
     (by decide)⟩

/-- C2, confirmed: with the provider call failing, the part_000 handler is a
total function (no exception can escape) and returns a valid canonical
schedule - via the extractor chain or the hardcoded fallback - for every
input text, the empty string included. -/
theorem C2_fallback_totality :
    ∀ text : String, validSchedule (handleGenerateAIFailed text) = true := by
  intro text
  unfold handleGenerateAIFailed
  cases h : deterministicParse text with
  | some det => exact deterministicParse_valid text det h
  | none => exact fbSchedule_valid

/-- C3, counterexample: the timeline pipeline variant's terminal fallback at
input `""` is a fixed two-item timeline whose debug object has no
`inferred_mode` at all - not the 20x40/20 INTERVAL schedule with
`inferred_mode = "FALLBACK"` - so the same fixed schedule is not the
terminal fallback in every pipeline variant. -/
theorem C3_fallback_counterexample :
    handleTimelineAIFailed "" = timelineFb ∧
    timelineFb.debug = some ⟨false, none, some "fallback generated"⟩ ∧
    fbSchedule.debug = some ⟨false, some "FALLBACK", some "AI parse failed"⟩ :=
  ⟨by decide, rfl, rfl⟩

/-- C3, amended: whenever the generative path fails and no extractor
matches, the block-schema pipeline variants return the fixed schedule
(single INTERVAL, sets 20, work 40s, rest 20s, total 20 minutes,
`inferred_mode = "FALLBACK"`) with HTTP success; the timeline variant
instead returns its own fixed fallback timeline. -/
theorem C3_fallback_amended :
    (∀ t, deterministicParse t = none → handleGenerateAIFailed t = fbSchedule) ∧
    (∀ t, deterministicParseV2 t = none → handleGenerateAIFailedV2 t = fbSchedule) ∧
    fbSchedule = ⟨"Fallback 20x40/20", 20, [.interval 20 40 20 none],
      some ⟨true, true, true, true⟩,
      some ⟨false, some "FALLBACK", some "AI parse failed"⟩⟩ ∧
    (∀ t, createFallbackTimeline t = none → handleTimelineAIFailed t = timelineFb) := by
  refine ⟨fun t h => ?_, fun t h => ?_, rfl, fun t h => ?_⟩
  · unfold handleGenerateAIFailed; rw [h]
  · unfold handleGenerateAIFailedV2; rw [h]
  · unfold handleTimelineAIFailed; rw [h]

/-- C3, witness: the amended conjuncts applied at the empty input, on which
no extractor matches in any variant. -/
theorem C3_fallback_witness :
    handleGenerateAIFailed "" = fbSchedule ∧
    handleGenerateAIFailedV2 "" = fbSchedule ∧
    handleTimelineAIFailed "" = timelineFb :=
  ⟨C3_fallback_amended.1 "" (by decide),
   C3_fallback_amended.2.1 "" (by decide),
   C3_fallback_amended.2.2.2 "" (by decide)⟩

/-- C4, counterexample: `"EMOM tabata"` contains both the explicit EMOM cue
and the tabata cue, yet the chain returns the TABATA extractor's output,
because the EMOM extractor also requires a captured minute count and
declines without one. -/
theorem C4_priority_counterexample :
    reTest reEmomCue "EMOM tabata".data = true ∧
    reTest reTabataCue "EMOM tabata".data = true ∧
    deterministicParse "EMOM tabata" = some c4Cx ∧
    c4Cx.debug = some ⟨false, some "TABATA", none⟩ :=
  ⟨by decide, by decide, by decide, rfl⟩

/-- C4, amended: for text containing the EMOM cue together with a nonzero
captured minute count (and a tabata cue), the chain returns the EMOM
extractor's output - first structural match wins - and that output carries
`inferred_mode = "EMOM"`; the TABATA extractor is never consulted. -/
theorem C4_priority_amended (t : String) (m : Nat)
    (hc : reTest reEmomCue t.data = true)
    (_ht : reTest reTabataCue t.data = true)
    (hm : reCapNat reEmomMin t = some m) (h0 : m ≠ 0) :
    deterministicParse t = parseEMOM t ∧ (parseEMOM t).isSome = true ∧
    ∀ s, parseEMOM t = some s → s.debug = some ⟨false, some "EMOM", none⟩ := by
  have hsome := parseEMOM_isSome t m hc hm h0
  refine ⟨?_, hsome, fun s h => parseEMOM_debug t s h⟩
  cases h : parseEMOM t with
  | some s => exact deterministicParse_emom_first t s h
  | none => rw [h] at hsome; simp at hsome

/-- C4, witness: the amended claim applied at `"EMOM 10 min tabata"`. -/
theorem C4_priority_witness :
    deterministicParse "EMOM 10 min tabata" = parseEMOM "EMOM 10 min tabata" ∧
    (parseEMOM "EMOM 10 min tabata").isSome = true :=
  ⟨(C4_priority_amended "EMOM 10 min tabata" 10 (by decide) (by decide)
      (by decide) (by decide)).1,
   (C4_priority_amended "EMOM 10 min tabata" 10 (by decide) (by decide)
      (by decide) (by decide)).2.1⟩

/-- C5, counterexample: on
`"EMOM 20 min: odd 12 burpees, even 45s plank"` the odd-phrase capture does
not stop at the comma (the clause boundaries are only `.`, `;`, newline), so
the instruction list is not the claimed
`[{odd, "12 burpees"}, {even, "45s plank"}]`. -/
theorem C5_emom_scenario_counterexample :
    parseEMOM "EMOM 20 min: odd 12 burpees, even 45s plank" = some c5Actual ∧
    c5Actual.blocks ≠ [Block.emom 20 c5Claimed] :=
  ⟨by decide, by decide⟩

/-- C5, amended: on that input the deterministic path returns an EMOM
schedule with minutes 20 and total 20, whose instructions are
`[{odd, "12 burpees, even 45s plank"}, {even, "45s plank"}]` - the odd
capture runs to the end of the string because a comma is not a clause
boundary. -/
theorem C5_emom_scenario_amended :
    deterministicParse "EMOM 20 min: odd 12 burpees, even 45s plank" = some c5Actual ∧
    c5Actual.total_minutes = 20 ∧
    c5Actual.blocks = [Block.emom 20
      [⟨some "odd", "12 burpees, even 45s plank"⟩, ⟨some "even", "45s plank"⟩]] :=
  ⟨by decide, rfl, rfl⟩

/-- C6, counterexample: on the single-line comma-separated input the
work/rest-pattern extractor returns none - the only line contains the skip
keyword "Rounds", so no exercise line survives the filter. -/
theorem C6_workrest_counterexample :
    parseWorkRestPattern
      "4 Rounds: :45 WORK // :15 REST, Run, Squat, *Rest 2:30 after each round"
      = none := by decide

/-- C6, amended: on the newline-separated form of the same workout the
work/rest-pattern extractor (and the chain of the variant that has it)
produces the sequenced INTERVAL with sets 4, rest_seconds 150, and two
45-second sequence items of which the first carries rest_after_seconds 15. -/
theorem C6_workrest_amended :
    parseWorkRestPattern
      "4 Rounds\n:45 WORK // :15 REST\nRun\nSquat\n*Rest 2:30 after each round"
      = some c6Sched ∧
    deterministicParseV2
      "4 Rounds\n:45 WORK // :15 REST\nRun\nSquat\n*Rest 2:30 after each round"
      = some c6Sched ∧
    c6Sched.blocks = [Block.interval 4 45 150
      (some [⟨some "Run", none, some 45, none, none, some 15, none⟩,
             ⟨some "Squat", none, some 45, none, none, none, none⟩])] :=
  ⟨by decide, by decide, rfl⟩

/-- C7, confirmed: on the raw sequence
`[{Burpees,20},{Rest,15},{Squats,20}]` both sequence rectifiers return
exactly 2 exercises, with Burpees carrying `rest_after_seconds = 15`, and no
rest-named item in the output (the part_000 strategy also attaches the
15-second rest to Squats as the last rest-bounded exercise; the third README
listing's strategy leaves Squats without one). -/
theorem C7_rest_absorption :
    analyzeAndFixSequence c7seq "" = c7out ∧
    analyzeAndFixSequenceV3 c7seq "" = c7outV3 ∧
    c7out.length = 2 ∧
    c7outV3.length = 2 ∧
    c7out.head? = some ⟨some "Burpees", none, some 20, none, none, some 15, none⟩ ∧
    c7outV3.head? = some ⟨some "Burpees", none, some 20, none, none, some 15, none⟩ ∧
    noRestItems c7out = true ∧
    noRestItems c7outV3 = true :=
  ⟨by decide, by decide, rfl, rfl, rfl, rfl, by decide, by decide⟩

/-- C8, counterexample: the third README listing's normalizer throws
(`"Unrecognized AI response"`) on an empty loose object with text matching
no cue - the exception escapes the normalizer, so not every pipeline
variant's normalizer surfaces failure as a negative signal. -/
theorem C8_normalizer_counterexample :
    normalizeV3 (some emptyLoose) "hello" = Except.error () := rfl

/-- C8, amended: the part_000 normalizer never throws outward - it is a
total function into `Option` whose whole body is inside try/catch - and any
input matching no recognized dialect yields the explicit negative signal
`none`; the third README listing's variant instead lets an exception escape
on such input. -/
theorem C8_normalizer_amended (ai : Option LooseAI) (text : String)
    (h : p0Unrecognized ai text = true) : normalize_p0 ai text = none :=
  normalize_p0_unrecognized ai text h

/-- C8, witness: the amended claim applied at the empty loose object and the
text `"hello"`. -/
theorem C8_normalizer_witness :
    p0Unrecognized (some emptyLoose) "hello" = true ∧
    normalize_p0 (some emptyLoose) "hello" = none :=
  ⟨by decide, C8_normalizer_amended (some emptyLoose) "hello" (by decide)⟩

/-- C9, counterexample: feeding the already-canonical branch a well-formed
schedule that carries the wrong `total_minutes = 99` returns 99 unchanged,
not the §4.3 recomputation 4 - the upstream value wins whenever it is
truthy. -/
theorem C9_idempotence_counterexample :
    normalize_p0
      (some (looseOfSched "T" (some 99) [Block.tabata 8 20 10 "Mixed"])) "x"
      = some ⟨"T", 99, [Block.tabata 8 20 10 "Mixed"], none, none⟩ ∧
    specTotalMinutes [Block.tabata 8 20 10 "Mixed"] = 4 ∧ (99 : Nat) ≠ 4 :=
  ⟨by decide, rfl, by decide⟩

/-- C9, amended: feeding a canonical schedule whose blocks the branch's
archetype defaulting preserves returns identical blocks, with
`total_minutes` equal to the §4.3 recomputation only when the input supplied
none (or zero) - a nonzero supplied value is returned unchanged.  The
defaulting does not preserve every canonical block: a simple INTERVAL with
`rest_seconds = 0`, exactly what `parseGenericIntervals` emits on
`"10 rounds 30s work"`, comes back with the 15-second default
(`block.rest_seconds || 15`), so "identical blocks" fails there and the
recomputed total (8) is taken over the modified block, not the input's (5). -/
theorem C9_idempotence_amended (text ttl : String) (blocks : List Block)
    (n : Nat) (hwf : ∀ b ∈ blocks, blockPreserved b = true) (hn : n ≠ 0) :
    (normalize_p0 (some (looseOfSched ttl none blocks)) text =
      some ⟨ttl, specTotalMinutes blocks, blocks, none, none⟩) ∧
    (normalize_p0 (some (looseOfSched ttl (some n) blocks)) text =
      some ⟨ttl, n, blocks, none, none⟩) ∧
    parseGenericIntervals "10 rounds 30s work" = some c9Generic ∧
    c9Generic.blocks = [Block.interval 10 30 0 none] ∧
    (normalize_p0
      (some (looseOfSched "10x30/0 Intervals" none [Block.interval 10 30 0 none]))
      text
      = some ⟨"10x30/0 Intervals", 8, [Block.interval 10 30 15 none], none, none⟩) ∧
    [Block.interval 10 30 15 none] ≠ [Block.interval 10 30 0 none] := by
  refine ⟨?_, ?_, by decide, rfl, rfl, by decide⟩
  · simpa [jsOrN] using normalize_p0_wf text ttl none blocks hwf
  · rw [normalize_p0_wf text ttl (some n) blocks hwf]
    simp [jsOrN, hn]

/-- C9, witness: the amended claim applied at a one-block tabata schedule
with supplied total 99, and its rest-0 disclosure conjuncts at text "x". -/
theorem C9_idempotence_witness :
    normalize_p0
      (some (looseOfSched "W" none [Block.tabata 8 20 10 "Mixed"])) "x"
      = some ⟨"W", specTotalMinutes [Block.tabata 8 20 10 "Mixed"],
              [Block.tabata 8 20 10 "Mixed"], none, none⟩ ∧
    normalize_p0
      (some (looseOfSched "W" (some 99) [Block.tabata 8 20 10 "Mixed"])) "x"
      = some ⟨"W", 99, [Block.tabata 8 20 10 "Mixed"], none, none⟩ ∧
    normalize_p0
      (some (looseOfSched "10x30/0 Intervals" none [Block.interval 10 30 0 none]))
      "x"
      = some ⟨"10x30/0 Intervals", 8, [Block.interval 10 30 15 none], none, none⟩ :=
  ⟨(C9_idempotence_amended "x" "W" [Block.tabata 8 20 10 "Mixed"] 99
      (by decide) (by decide)).1,
   (C9_idempotence_amended "x" "W" [Block.tabata 8 20 10 "Mixed"] 99
      (by decide) (by decide)).2.1,
   (C9_idempotence_amended "x" "W" [Block.tabata 8 20 10 "Mixed"] 99
      (by decide) (by decide)).2.2.2.2.1⟩

/-- C10, confirmed: a request with a missing body, or a body without `text`,
is coerced to the empty string and processed through the same pipeline - no
validation branch exists in any variant - so with a failing provider it
yields each variant's hardcoded fallback with HTTP success, never a 400 or
an error envelope. -/
theorem C10_missing_text :
    requestText none = "" ∧
    requestText (some ⟨none⟩) = "" ∧
    handleGenerateAIFailed (requestText none) = fbSchedule ∧
    handleGenerateAIFailed (requestText (some ⟨none⟩)) = fbSchedule ∧
    handleGenerateAIFailedV2 (requestText none) = fbSchedule ∧
    handleTimelineAIFailed (requestText none) = timelineFb :=
  ⟨rfl, rfl, by decide, by decide, by decide, by decide⟩

end AITimer
